import Mathlib

/-!
Verification of the query-time retrieval-and-synthesis engine of
`src/js/global-ask.js`.  The pure scoring, selection and composition
pipeline is embedded shallowly: strings stay `String`, scores become `ℚ`,
the mutable module state becomes explicit state passing, and the DOM
rendering collaborator is abstracted away (only the data that reaches it
— lead text and source references — is modelled).
-/

namespace GlobalAsk

/-- Stopword set of the source (`STOP`, line 45). -/
def STOP : List String :=
  ["the", "a", "an", "and", "or", "to", "of", "for", "in", "on", "with",
   "is", "are", "be", "can", "how", "what", "do", "does", "did", "i", "we", "you"]

/-- One character of the source's normalisation (line 48): `toLowerCase`,
then the regex replace of every character outside lowercase letters,
digits and the space by a space. -/
def cleanChar (c : Char) : Char :=
  let l := c.toLower
  if ('a' ≤ l ∧ l ≤ 'z') ∨ ('0' ≤ l ∧ l ≤ '9') ∨ l = ' ' then l else ' '

/-- Tokenisation of a character list: normalise, split on the space
character (keeping empty pieces, as JavaScript `split(' ')` does), then
drop the empty pieces and the stopwords. -/
def toksOfChars (l : List Char) : List String :=
  (((l.map cleanChar).splitOn ' ').map (fun p => String.mk p)).filter
    (fun t => !t.isEmpty && !STOP.contains t)

/-- `tokeniseClean` of the source (lines 47-49). -/
def tokeniseClean (s : String) : List String :=
  toksOfChars s.data

/-- `dice(A, B)` of the source (lines 51-56): the Dice coefficient over
the distinct tokens of the two lists. `A.dedup` plays the set `SA`, and
the filtered length is the size of the intersection. -/
def dice (A B : List String) : ℚ :=
  if A.isEmpty || B.isEmpty then 0
  else (2 * ((A.dedup.filter (fun x => decide (x ∈ B))).length : ℚ)) /
    ((A.dedup.length : ℚ) + (B.dedup.length : ℚ))

/-- `headingScore(query, heading)` of the source (lines 58-64). -/
def headingScore (query heading : String) : ℚ :=
  let q := tokeniseClean query
  let h := tokeniseClean heading
  if q.isEmpty || h.isEmpty then 0
  else if q.all (fun x => decide (x ∈ h)) then 95 / 100
  else dice q h + 15 / 100

/-- The sentence boundary class of the split regex (trailing `.`, `!`, `?`). -/
def isBoundaryPunct (c : Char) : Bool :=
  c = '.' || c = '!' || c = '?'

/-- Whether a character list starts with a whitespace character (the
lookahead part of the split regex match). -/
def startsWithWS : List Char → Bool
  | [] => false
  | c :: _ => c.isWhitespace

/-- Worker for the sentence split: a separator of the regex of line 68 is
a whitespace run right after a `.`, `!` or `?`. `acc` holds the current
sentence reversed; `skip` is true while inside the whitespace run of a
separator (those characters are consumed by the separator). -/
def splitGo (skip : Bool) (acc : List Char) : List Char → List (List Char)
  | [] => [acc.reverse]
  | c :: rest =>
    if skip && c.isWhitespace then splitGo true acc rest
    else if isBoundaryPunct c && startsWithWS rest then
      (c :: acc).reverse :: splitGo true [] rest
    else splitGo false (c :: acc) rest

/-- The sentence split of `bestSentenceScore` (line 68). -/
def splitSentences (body : String) : List String :=
  (splitGo false [] body.data).map (fun p => String.mk p)

/-- `bestSentenceScore(query, body)` of the source (lines 66-75): the
best Dice score among the first 12 sentences, together with the sentence
that achieved it (`''` when no sentence scored above 0). -/
def bestSentenceScore (query body : String) : ℚ × String :=
  let q := tokeniseClean query
  let sentences := (splitSentences body).take 12
  sentences.foldl
    (fun best s =>
      let sc := dice q (tokeniseClean s)
      if best.1 < sc then (sc, s) else best)
    ((0 : ℚ), "")

/-- `CANDIDATE_FLOOR` (line 7). -/
def CANDIDATE_FLOOR : ℚ := 5 / 100

/-- `STRONG_MATCH` (line 8). -/
def STRONG_MATCH : ℚ := 20 / 100

/-- `BOOST_DOC` (line 9). -/
def BOOST_DOC : ℚ := 5 / 100

/-- `BOOST_H2` (line 10). -/
def BOOST_H2 : ℚ := 8 / 100

/-- `BOOST_FAQ` (line 11). -/
def BOOST_FAQ : ℚ := 6 / 100

/-- A corpus section: `{id, heading, body}`. -/
structure Sect where
  id : String
  heading : String
  body : String
deriving DecidableEq, Repr

/-- A FAQ entry: `{q, a, section_id}` (`section_id` optional). -/
structure Faq where
  q : String
  a : String
  section_id : Option String
deriving DecidableEq, Repr

/-- A document: `{id, title, sections, faqs}` (absent lists are `[]`, as
`d.sections || []` reads them). -/
structure Doc where
  id : String
  title : String
  sections : List Sect
  faqs : List Faq
deriving DecidableEq, Repr

/-- The corpus: `{docs}`. -/
structure Corpus where
  docs : List Doc
deriving DecidableEq, Repr

/-- The candidate kinds pushed by `searchCorpus` (`'doc' | 'section' | 'faq'`). -/
inductive CandType
  | doc
  | sec
  | faq
deriving DecidableEq, Repr

/-- A scored candidate as `searchCorpus` builds it: section candidates
carry their section in `sectionRef`, FAQ candidates carry `sectionId` in
`sectionIdRef`. -/
structure Cand where
  type : CandType
  score : ℚ
  docRef : Doc
  sectionRef : Option Sect
  sectionIdRef : Option String
  snippet : String
deriving DecidableEq, Repr

/-- JavaScript `String.prototype.trim` on the inputs the source handles:
drop whitespace from both ends. -/
def jsTrim (s : String) : String :=
  String.mk (((s.data.dropWhile Char.isWhitespace).reverse.dropWhile
    Char.isWhitespace).reverse)

/-- The doc-title candidate of `searchCorpus` (lines 85-88): pushed when
the title's heading score reaches `0.30`. -/
def docTitleCand (q : String) (d : Doc) : List Cand :=
  let docS := headingScore q d.title
  if 30 / 100 ≤ docS then
    [{ type := CandType.doc, score := docS + BOOST_DOC, docRef := d,
       sectionRef := none, sectionIdRef := none, snippet := d.title }]
  else []

/-- The section candidate of `searchCorpus` (lines 90-102), with the
relevance floor (`CANDIDATE_FLOOR` in the source) as a parameter. -/
def sectionCand (floor : ℚ) (q : String) (d : Doc) (s : Sect) : Option Cand :=
  let h := headingScore q s.heading
  let bs := bestSentenceScore q s.body
  let score := (max h bs.1) + (if 0 < h then BOOST_H2 else 0)
  if floor ≤ score then
    some { type := CandType.sec, score := score, docRef := d,
           sectionRef := some s, sectionIdRef := none,
           snippet := if bs.1 ≤ h then s.heading else bs.2 }
  else none

/-- The FAQ candidate of `searchCorpus` (lines 104-115), floor as a
parameter. -/
def faqCand (floor : ℚ) (q : String) (d : Doc) (f : Faq) : Option Cand :=
  let h := headingScore q f.q
  let bs := bestSentenceScore q f.a
  let score := (max h bs.1) + BOOST_FAQ
  if floor ≤ score then
    some { type := CandType.faq, score := score, docRef := d,
           sectionRef := none, sectionIdRef := f.section_id,
           snippet := if bs.2 = "" then f.q else bs.2 }
  else none

/-- All candidates one document contributes, in push order: title, then
sections, then FAQs. -/
def docCands (floor : ℚ) (q : String) (d : Doc) : List Cand :=
  docTitleCand q d ++ d.sections.filterMap (sectionCand floor q d)
    ++ d.faqs.filterMap (faqCand floor q d)

/-- The unsorted candidate list of `searchCorpus`, in push order. -/
def searchRaw (floor : ℚ) (corpus : Corpus) (q : String) : List Cand :=
  (corpus.docs.map (docCands floor q)).flatten

/-- The order the comparator `(a, b) => b.score - a.score` of line 117
sorts by: descending score. -/
def candLE (a b : Cand) : Prop :=
  b.score ≤ a.score

instance : DecidableRel candLE :=
  fun a b => inferInstanceAs (Decidable (b.score ≤ a.score))

instance : IsTotal Cand candLE :=
  ⟨fun a b => le_total b.score a.score⟩

instance : IsTrans Cand candLE :=
  ⟨fun _ _ _ h1 h2 => le_trans h2 h1⟩

/-- The stable descending sort `results.sort((a, b) => b.score - a.score)`
of line 117 (JavaScript `Array.prototype.sort` is stable; a stable
insertion sort realises the same function). -/
def sortCands (l : List Cand) : List Cand :=
  l.insertionSort candLE

/-- `searchCorpus(query)` (lines 78-119) with the relevance floor as a
parameter: trim, early exit on the empty query, score, sort. -/
def searchCorpusF (floor : ℚ) (corpus : Corpus) (query : String) : List Cand :=
  let q := jsTrim query
  if q = "" then [] else sortCands (searchRaw floor corpus q)

/-- `searchCorpus(query)` as the source runs it, at floor `CANDIDATE_FLOOR`. -/
def searchCorpus (corpus : Corpus) (query : String) : List Cand :=
  searchCorpusF CANDIDATE_FLOOR corpus query

/-- JavaScript truthiness of a nullable string: `null`, `undefined` and
`''` are falsy. -/
def truthy : Option String → Option String
  | some s => if s = "" then none else some s
  | none => none

/-- The `secId` a candidate presents to `selectSources` (line 128):
`c.type === 'section' ? c.section.id : (c.sectionId || null)`. -/
def Cand.secIdJS (c : Cand) : Option String :=
  if c.type = CandType.sec then c.sectionRef.map Sect.id else truthy c.sectionIdRef

/-- The `secId && seenSections.has(secId)` test of line 129 (truthiness of
`secId` included). -/
def secSeen (o : Option String) (seen : List String) : Bool :=
  match truthy o with
  | some s => decide (s ∈ seen)
  | none => false

/-- The loop of `selectSources` (lines 126-135). The two `Set`s are
nodup lists (`seenD` inserts only fresh ids, so its length is the set's
size). The `break` after a third pick is the `3 ≤` test. -/
def selGo : List Cand → List Cand → List String → List String → List Cand
  | [], picked, _, _ => picked
  | c :: rest, picked, seenS, seenD =>
    let docId := c.docRef.id
    let secId := c.secIdJS
    if secSeen secId seenS then selGo rest picked seenS seenD
    else if seenD.length = 2 && !seenD.contains docId then selGo rest picked seenS seenD
    else
      let picked' := picked ++ [c]
      let seenS' := match truthy secId with
        | some s => s :: seenS
        | none => seenS
      let seenD' := if seenD.contains docId then seenD else docId :: seenD
      if 3 ≤ picked'.length then picked' else selGo rest picked' seenS' seenD'

/-- `selectSources(cands)` (lines 122-137). -/
def selectSources (cands : List Cand) : List Cand :=
  selGo cands [] [] []

/-- The data of one source chip of `composeAnswer` (lines 160-164):
document id and title, the `secId` and the section title used for the
buttons and the label (empty `secId` means no jump button). -/
structure SourceRef where
  documentId : String
  secId : String
  docTitle : String
  secTitle : String
deriving DecidableEq, Repr

/-- The source chip data `composeAnswer` derives from a candidate. -/
def sourceRefOf (c : Cand) : SourceRef :=
  { documentId := c.docRef.id
  , secId := if c.type = CandType.sec
      then (c.sectionRef.map Sect.id).getD ""
      else (truthy c.sectionIdRef).getD ""
  , docTitle := c.docRef.title
  , secTitle :=
      if c.type = CandType.sec then (c.sectionRef.map Sect.heading).getD ""
      else if c.type = CandType.faq then (truthy c.sectionIdRef).getD "FAQ"
      else "Document" }

/-- The first sentence of a block of `composeAnswer` (lines 142-152):
section and FAQ blocks re-extract the best sentence and fall back to the
snippet when it is empty; doc blocks use the snippet. -/
def blockSentence (query : String) (c : Cand) : String :=
  if c.type = CandType.sec then
    let s := (bestSentenceScore query ((c.sectionRef.map Sect.body).getD "")).2
    if s = "" then c.snippet else s
  else if c.type = CandType.faq then
    let s := (bestSentenceScore query c.snippet).2
    if s = "" then c.snippet else s
  else c.snippet

/-- The lead paragraph of `composeAnswer` (line 154): first sentences,
empties dropped, at most two, joined by a space. -/
def leadOf (query : String) (sources : List Cand) : String :=
  String.intercalate " "
    (((sources.map (blockSentence query)).filter (fun s => !s.isEmpty)).take 2)

/-- The answer as consumed by the rendering collaborator: the designated
no-match answer (empty source list), or a lead text with source chips. -/
inductive Answer
  | noMatch
  | answered (lead : String) (sources : List SourceRef)
deriving DecidableEq, Repr

/-- The source list an answer carries (`noMatch` carries none). -/
def answerSources : Answer → List SourceRef
  | Answer.noMatch => []
  | Answer.answered _ s => s

/-- The lead text of an answer. -/
def answerLead : Answer → String
  | Answer.noMatch => ""
  | Answer.answered lead _ => lead

/-- The strong tier of `renderAnswerOrFallback` (line 185). -/
def strongPool (cands : List Cand) : List Cand :=
  cands.filter (fun c => decide (STRONG_MATCH ≤ c.score))

/-- The working pool of `renderAnswerOrFallback` (line 186): the strong
tier when non-empty, otherwise all candidates. -/
def poolOf (cands : List Cand) : List Cand :=
  if (strongPool cands).isEmpty then cands else strongPool cands

/-- `renderAnswerOrFallback(query, cands)` (lines 180-201), DOM
abstracted: the no-match branch when the pool is empty, otherwise the
selected sources composed into an answer. -/
def answerOf (query : String) (cands : List Cand) : Answer :=
  let pool := poolOf cands
  if pool.isEmpty then Answer.noMatch
  else
    let sources := selectSources pool
    Answer.answered (leadOf query sources) (sources.map sourceRefOf)

/-- The full query pipeline as `submit` runs it (lines 372-384): trim,
search, render. -/
def askAnswer (corpus : Corpus) (query : String) : Answer :=
  answerOf (jsTrim query) (searchCorpus corpus query)

/-- A parsed JSON payload as `loadCorpus` distinguishes them: a falsy
value, an object with a `docs` array, or one without. -/
inductive JsValue
  | nullish
  | withDocs (docs : List Doc)
  | noDocsArray
deriving DecidableEq, Repr

/-- What the `fetch` of `loadCorpus` can deliver: a non-ok response
(throws before `r.json()`), a JSON parse failure (throws during the
assignment), or a parsed value. -/
inductive FetchResult
  | notOk
  | jsonError
  | jsonValue (v : JsValue)
deriving DecidableEq, Repr

/-- The module state `loadCorpus` mutates: `corpus` and `corpusReady`
(lines 14-15). -/
structure LoadState where
  corpus : Option JsValue
  corpusReady : Bool
deriving DecidableEq, Repr

/-- `loadCorpus` (lines 24-42), fetch and DOM abstracted. The assignment
`corpus = await r.json()` happens before the validation
`Array.isArray(corpus.docs)`, so a parsed but invalid payload overwrites
the stored corpus before the `catch` clears the ready flag. -/
def loadCorpus (st : LoadState) (r : FetchResult) : LoadState :=
  match r with
  | FetchResult.notOk => { corpus := st.corpus, corpusReady := false }
  | FetchResult.jsonError => { corpus := st.corpus, corpusReady := false }
  | FetchResult.jsonValue v =>
    match v with
    | JsValue.withDocs docs =>
        { corpus := some (JsValue.withDocs docs), corpusReady := true }
    | JsValue.nullish => { corpus := some JsValue.nullish, corpusReady := false }
    | JsValue.noDocsArray => { corpus := some JsValue.noDocsArray, corpusReady := false }

/-- The engine session state the query path reads: the loaded corpus and
the readiness flag. -/
structure EngineState where
  corpus : Option Corpus
  corpusReady : Bool
deriving DecidableEq, Repr

/-- `submit` of `initGlobalAsk` (lines 372-384) as a state transformer:
not ready or an empty query is a no-op; otherwise the pipeline runs on
the stored corpus and the state is untouched. (When `corpusReady` is set
the source has always assigned a corpus; the `none` case is modelled as
a no-op.) -/
def submit (st : EngineState) (input : String) : EngineState × Option Answer :=
  if !st.corpusReady then (st, none)
  else
    match st.corpus with
    | none => (st, none)
    | some c =>
      let q := jsTrim input
      if q = "" then (st, none)
      else (st, some (answerOf q (searchCorpus c q)))

/-- The section of the reference scenario (spec §8). -/
def limitSect : Sect :=
  { id := "limit-payments"
  , heading := "Limit the number of times a payment link can be paid"
  , body := "Enable Limit the number of payments in the dashboard and set it to 1. This restricts the link to one completed session." }

/-- The document of the reference scenario. -/
def payDoc : Doc :=
  { id := "payment-links", title := "Payment Links"
  , sections := [limitSect], faqs := [] }

/-- The corpus of the reference scenario: one document titled
"Payment Links" holding the `limit-payments` section. -/
def payCorpus : Corpus := ⟨[payDoc]⟩

/-- The query of the reference scenario. -/
def scenarioQuery : String := "make a payment link single use"

/-- A section whose heading yields no tokens: only such sections can
fail to become candidates. -/
def blankSect : Sect := { id := "s1", heading := "", body := "Hello world. Bye." }

/-- A document with a token-free section heading and no FAQs. -/
def blankDoc : Doc :=
  { id := "d1", title := "Zeta", sections := [blankSect], faqs := [] }

/-- A corpus on which an alien query genuinely ends in the no-match branch. -/
def blankCorpus : Corpus := ⟨[blankDoc]⟩

/-- A sample candidate used to instantiate the selection lemmas at a
concrete input. -/
def exCand : Cand :=
  { type := CandType.sec, score := 1/2, docRef := payDoc,
    sectionRef := some limitSect, sectionIdRef := none, snippet := "x" }

/-! Tokenisation is invariant under the trim `searchCorpus` applies to
the query: trimming only removes whitespace at the ends, and whitespace
normalises to spaces, which the splitting then discards. -/

theorem cleanChar_of_ws {c : Char} (h : c.isWhitespace = true) : cleanChar c = ' ' := by
  have h' : ((c = ' ' ∨ c = '\t') ∨ c = '\r') ∨ c = '\n' := by
    simpa [Char.isWhitespace] using h
  rcases h' with ((h' | h') | h') | h'
  all_goals subst h'
  all_goals rfl

theorem toksOfChars_cons_space {c : Char} (hc : cleanChar c = ' ') (l : List Char) :
    toksOfChars (c :: l) = toksOfChars l := by
  simp [toksOfChars, hc, List.splitOn, List.splitOnP_cons, String.isEmpty]

theorem splitOnP_append_sep {p : Char → Bool} {a : Char} (ha : p a = true) :
    ∀ l : List Char, (l ++ [a]).splitOnP p = l.splitOnP p ++ [[]]
  | [] => by simp [ha]
  | c :: l => by
    by_cases hc : p c
    · simp [List.splitOnP_cons, hc, splitOnP_append_sep ha l]
    · simp only [List.cons_append, List.splitOnP_cons, hc, Bool.false_eq_true,
        if_false, splitOnP_append_sep ha l]
      cases hsp : l.splitOnP p with
      | nil => exact absurd hsp (List.splitOnP_ne_nil _ _)
      | cons x xs => simp [List.modifyHead]

theorem toksOfChars_concat_space {a : Char} (ha : cleanChar a = ' ') (l : List Char) :
    toksOfChars (l ++ [a]) = toksOfChars l := by
  simp only [toksOfChars, List.splitOn, List.map_append, List.map_cons, List.map_nil, ha]
  rw [splitOnP_append_sep (by simp) (l.map cleanChar)]
  simp [List.filter_append, String.isEmpty]

theorem toksOfChars_append_spaces :
    ∀ {p : List Char}, (∀ c ∈ p, cleanChar c = ' ') →
      ∀ l, toksOfChars (l ++ p) = toksOfChars l
  | [], _, l => by simp
  | c :: p, h, l => by
    have : l ++ c :: p = (l ++ [c]) ++ p := by simp
    rw [this, toksOfChars_append_spaces (fun d hd => h d (List.mem_cons_of_mem _ hd)),
      toksOfChars_concat_space (h c (List.mem_cons_self _ _))]

theorem toksOfChars_prepend_spaces :
    ∀ {p : List Char}, (∀ c ∈ p, cleanChar c = ' ') →
      ∀ l, toksOfChars (p ++ l) = toksOfChars l
  | [], _, l => by simp
  | c :: p, h, l => by
    rw [List.cons_append, toksOfChars_cons_space (h c (List.mem_cons_self _ _)),
      toksOfChars_prepend_spaces (fun d hd => h d (List.mem_cons_of_mem _ hd))]

theorem tokeniseClean_jsTrim (s : String) :
    tokeniseClean (jsTrim s) = tokeniseClean s := by
  unfold tokeniseClean jsTrim
  set l := s.data with hl
  have hsplit : l = l.takeWhile Char.isWhitespace ++ l.dropWhile Char.isWhitespace :=
    (List.takeWhile_append_dropWhile ..).symm
  set m := l.dropWhile Char.isWhitespace with hm
  have hsplit2 : m = (m.reverse.dropWhile Char.isWhitespace).reverse
      ++ (m.reverse.takeWhile Char.isWhitespace).reverse := by
    conv_lhs => rw [← m.reverse_reverse,
      ← List.takeWhile_append_dropWhile (p := Char.isWhitespace) (l := m.reverse)]
    rw [List.reverse_append]
  show toksOfChars ((m.reverse.dropWhile Char.isWhitespace).reverse) = toksOfChars l
  conv_rhs => rw [hsplit, hsplit2]
  rw [← List.append_assoc,
    toksOfChars_append_spaces (fun c hc =>
      cleanChar_of_ws (List.mem_takeWhile_imp (List.mem_reverse.mp hc))),
    toksOfChars_prepend_spaces (fun c hc => cleanChar_of_ws (List.mem_takeWhile_imp hc))]

theorem tokeniseClean_of_jsTrim_empty {s : String} (h : jsTrim s = "") :
    tokeniseClean s = [] := by
  have h2 := tokeniseClean_jsTrim s
  rw [h] at h2
  exact h2.symm.trans rfl

/-! The scores depend on the query only through its token list. -/

theorem headingScore_congr {q1 q2 : String} (h : tokeniseClean q1 = tokeniseClean q2)
    (heading : String) : headingScore q1 heading = headingScore q2 heading := by
  unfold headingScore
  rw [h]

theorem bestSentenceScore_congr {q1 q2 : String} (h : tokeniseClean q1 = tokeniseClean q2)
    (body : String) : bestSentenceScore q1 body = bestSentenceScore q2 body := by
  unfold bestSentenceScore
  rw [h]

/-! Elementary facts about the Dice score. -/

theorem dice_nonneg (A B : List String) : 0 ≤ dice A B := by
  unfold dice
  split
  · exact le_refl 0
  · next h =>
    apply div_nonneg
    · positivity
    · positivity

theorem dice_eq_zero_of_disjoint {A B : List String} (h : ∀ t ∈ A, t ∉ B) :
    dice A B = 0 := by
  unfold dice
  split
  · rfl
  · have hf : A.dedup.filter (fun x => decide (x ∈ B)) = [] := by
      rw [List.filter_eq_nil_iff]
      intro a ha
      simp [h a (List.mem_dedup.mp ha)]
    rw [hf]
    simp

/-- The filtered-dedup count of `dice` is the cardinality of the token-set
intersection, and the dedup lengths are the token-set cardinalities. -/
theorem dice_eq_card {A B : List String} (hA : A ≠ []) (hB : B ≠ []) :
    dice A B = 2 * ((A.toFinset ∩ B.toFinset).card : ℚ) /
      ((A.toFinset.card : ℚ) + (B.toFinset.card : ℚ)) := by
  unfold dice
  rw [if_neg (by simp [hA, hB])]
  have h1 : (A.dedup.filter (fun x => decide (x ∈ B))).length
      = (A.toFinset ∩ B.toFinset).card := by
    have hnd : (A.dedup.filter (fun x => decide (x ∈ B))).Nodup :=
      (List.nodup_dedup A).filter _
    rw [← List.toFinset_card_of_nodup hnd]
    congr 1
    ext x
    simp [List.mem_toFinset, List.mem_filter, List.mem_dedup, Finset.mem_inter]
  have h2 : A.dedup.length = A.toFinset.card := (List.card_toFinset A).symm
  have h3 : B.dedup.length = B.toFinset.card := (List.card_toFinset B).symm
  rw [h1, h2, h3]

/-! Bounds on the heading score. -/

theorem headingScore_def (query heading : String) :
    headingScore query heading =
      if ((tokeniseClean query).isEmpty || (tokeniseClean heading).isEmpty) = true then 0
      else if ((tokeniseClean query).all
          fun x => decide (x ∈ tokeniseClean heading)) = true then 95 / 100
      else dice (tokeniseClean query) (tokeniseClean heading) + 15 / 100 := rfl

theorem headingScore_ge_bias {query heading : String}
    (hq : tokeniseClean query ≠ []) (hh : tokeniseClean heading ≠ []) :
    15 / 100 ≤ headingScore query heading := by
  unfold headingScore
  rw [if_neg (by simp [hq, hh])]
  split
  · norm_num
  · have := dice_nonneg (tokeniseClean query) (tokeniseClean heading)
    linarith

theorem headingScore_le_bias_of_disjoint {query heading : String}
    (hdisj : ∀ t ∈ tokeniseClean query, t ∉ tokeniseClean heading) :
    headingScore query heading ≤ 15 / 100 := by
  rw [headingScore_def]
  split
  · norm_num
  · next hne =>
    have hq : ¬(tokeniseClean query).isEmpty := by
      intro h
      simp [h] at hne
    split
    · next hall =>
      exfalso
      obtain ⟨t, ht⟩ := List.exists_mem_of_ne_nil (tokeniseClean query) (by
        intro h
        exact hq (by simp [h]))
      have := List.all_eq_true.mp hall t ht
      exact hdisj t ht (of_decide_eq_true this)
    · rw [dice_eq_zero_of_disjoint hdisj]
      norm_num

theorem headingScore_nonneg (query heading : String) :
    0 ≤ headingScore query heading := by
  rw [headingScore_def]
  split
  · exact le_refl 0
  · split
    · norm_num
    · have := dice_nonneg (tokeniseClean query) (tokeniseClean heading)
      linarith

/-- C7: on token-nonempty query and heading, the heading score is the
fixed 0.95 when every query token lies in the heading token set, and
otherwise the Dice coefficient of the two token sets plus the 0.15
heading bias. -/
theorem C7_headingScore_spec (query heading : String)
    (hq : tokeniseClean query ≠ []) (hh : tokeniseClean heading ≠ []) :
    ((∀ t ∈ tokeniseClean query, t ∈ tokeniseClean heading) →
      headingScore query heading = 95 / 100) ∧
    ((∃ t ∈ tokeniseClean query, t ∉ tokeniseClean heading) →
      headingScore query heading =
        2 * (((tokeniseClean query).toFinset ∩ (tokeniseClean heading).toFinset).card : ℚ) /
          (((tokeniseClean query).toFinset.card : ℚ)
            + ((tokeniseClean heading).toFinset.card : ℚ)) + 15 / 100) := by
  constructor
  · intro hall
    unfold headingScore
    rw [if_neg (by simp [hq, hh]), if_pos]
    rw [List.all_eq_true]
    intro t ht
    exact decide_eq_true (hall t ht)
  · intro ⟨t, ht, htn⟩
    unfold headingScore
    rw [if_neg (by simp [hq, hh]), if_neg, dice_eq_card hq hh]
    rw [List.all_eq_true]
    intro hall
    exact htn (of_decide_eq_true (hall t ht))

/-- C7 witness: the two branches at concrete inputs. -/
theorem C7_witness :
    headingScore "make a payment link" "payment link setup" =
      2 * (((tokeniseClean "make a payment link").toFinset
            ∩ (tokeniseClean "payment link setup").toFinset).card : ℚ) /
        (((tokeniseClean "make a payment link").toFinset.card : ℚ)
          + ((tokeniseClean "payment link setup").toFinset.card : ℚ)) + 15 / 100 :=
  (C7_headingScore_spec "make a payment link" "payment link setup"
    (by with_unfolding_all decide) (by with_unfolding_all decide)).2
    (by with_unfolding_all decide)

/-! Unfolded equations for the candidate builders and the search. -/

theorem sectionCand_def (floor : ℚ) (q : String) (d : Doc) (s : Sect) :
    sectionCand floor q d s =
      (if floor ≤ max (headingScore q s.heading) (bestSentenceScore q s.body).1
          + (if 0 < headingScore q s.heading then BOOST_H2 else 0) then
        some { type := CandType.sec
             , score := max (headingScore q s.heading) (bestSentenceScore q s.body).1
                 + (if 0 < headingScore q s.heading then BOOST_H2 else 0)
             , docRef := d, sectionRef := some s, sectionIdRef := none
             , snippet := if (bestSentenceScore q s.body).1 ≤ headingScore q s.heading
                 then s.heading else (bestSentenceScore q s.body).2 } else none) := rfl

theorem faqCand_def (floor : ℚ) (q : String) (d : Doc) (f : Faq) :
    faqCand floor q d f =
      (if floor ≤ max (headingScore q f.q) (bestSentenceScore q f.a).1 + BOOST_FAQ then
        some { type := CandType.faq
             , score := max (headingScore q f.q) (bestSentenceScore q f.a).1 + BOOST_FAQ
             , docRef := d, sectionRef := none, sectionIdRef := f.section_id
             , snippet := if (bestSentenceScore q f.a).2 = "" then f.q
                 else (bestSentenceScore q f.a).2 } else none) := rfl

theorem docTitleCand_def (q : String) (d : Doc) :
    docTitleCand q d =
      (if 30 / 100 ≤ headingScore q d.title then
        [{ type := CandType.doc, score := headingScore q d.title + BOOST_DOC,
           docRef := d, sectionRef := none, sectionIdRef := none,
           snippet := d.title }] else []) := rfl

theorem searchCorpusF_def (floor : ℚ) (corpus : Corpus) (query : String) :
    searchCorpusF floor corpus query =
      if jsTrim query = "" then []
      else sortCands (searchRaw floor corpus (jsTrim query)) := rfl

theorem mem_sortCands {c : Cand} {l : List Cand} : c ∈ sortCands l ↔ c ∈ l :=
  List.mem_insertionSort candLE

/-- C10: the heading score of token-nonempty query and heading never
falls below the fixed 0.15 bias; consequently every section with a
token-nonempty heading becomes a candidate and scores at least
0.15 + 0.08 = 0.23, at or above the 0.20 strong-match threshold, for
every query with a non-empty token list. -/
theorem C10_heading_bias_strong (corpus : Corpus) (query : String) (d : Doc) (s : Sect)
    (hd : d ∈ corpus.docs) (hs : s ∈ d.sections)
    (hq : tokeniseClean query ≠ []) (hh : tokeniseClean s.heading ≠ []) :
    (∀ q2 h2 : String, tokeniseClean q2 ≠ [] → tokeniseClean h2 ≠ [] →
      15 / 100 ≤ headingScore q2 h2) ∧
    ∃ c ∈ searchCorpus corpus query, c.type = CandType.sec ∧ c.sectionRef = some s ∧
      23 / 100 ≤ c.score ∧ STRONG_MATCH ≤ c.score ∧ CANDIDATE_FLOOR ≤ c.score := by
  refine ⟨fun q2 h2 => headingScore_ge_bias, ?_⟩
  have hq' : tokeniseClean (jsTrim query) = tokeniseClean query := tokeniseClean_jsTrim query
  have hne : jsTrim query ≠ "" := fun h => hq (tokeniseClean_of_jsTrim_empty h)
  have hbias : 15 / 100 ≤ headingScore (jsTrim query) s.heading := by
    rw [headingScore_congr hq']
    exact headingScore_ge_bias hq hh
  have hpos : 0 < headingScore (jsTrim query) s.heading :=
    lt_of_lt_of_le (by norm_num) hbias
  have hscore : 23 / 100 ≤
      max (headingScore (jsTrim query) s.heading)
        (bestSentenceScore (jsTrim query) s.body).1
      + (if 0 < headingScore (jsTrim query) s.heading then BOOST_H2 else 0) := by
    rw [if_pos hpos]
    have h1 : headingScore (jsTrim query) s.heading ≤
        max (headingScore (jsTrim query) s.heading)
          (bestSentenceScore (jsTrim query) s.body).1 := le_max_left _ _
    unfold BOOST_H2
    linarith
  have hfloor : CANDIDATE_FLOOR ≤
      max (headingScore (jsTrim query) s.heading)
        (bestSentenceScore (jsTrim query) s.body).1
      + (if 0 < headingScore (jsTrim query) s.heading then BOOST_H2 else 0) :=
    le_trans (by norm_num [CANDIDATE_FLOOR]) hscore
  refine ⟨{ type := CandType.sec
          , score := max (headingScore (jsTrim query) s.heading)
              (bestSentenceScore (jsTrim query) s.body).1
              + (if 0 < headingScore (jsTrim query) s.heading then BOOST_H2 else 0)
          , docRef := d, sectionRef := some s, sectionIdRef := none
          , snippet := if (bestSentenceScore (jsTrim query) s.body).1 ≤
                headingScore (jsTrim query) s.heading
              then s.heading else (bestSentenceScore (jsTrim query) s.body).2 }, ?_, rfl, rfl,
        hscore, le_trans (by norm_num [STRONG_MATCH]) hscore, hfloor⟩
  rw [searchCorpus, searchCorpusF_def, if_neg hne, mem_sortCands]
  unfold searchRaw
  rw [List.mem_flatten]
  refine ⟨docCands CANDIDATE_FLOOR (jsTrim query) d, List.mem_map_of_mem _ hd, ?_⟩
  unfold docCands
  refine List.mem_append.mpr (Or.inl (List.mem_append.mpr (Or.inr ?_)))
  exact List.mem_filterMap.mpr ⟨s, hs, by rw [sectionCand_def, if_pos hfloor]⟩

/-- C10 witness: the scenario section at the scenario query. -/
theorem C10_witness :
    (∀ q2 h2 : String, tokeniseClean q2 ≠ [] → tokeniseClean h2 ≠ [] →
      15 / 100 ≤ headingScore q2 h2) ∧
    ∃ c ∈ searchCorpus payCorpus scenarioQuery, c.type = CandType.sec ∧
      c.sectionRef = some limitSect ∧ 23 / 100 ≤ c.score ∧
      STRONG_MATCH ≤ c.score ∧ CANDIDATE_FLOOR ≤ c.score :=
  C10_heading_bias_strong payCorpus scenarioQuery payDoc limitSect
    (by with_unfolding_all decide) (by with_unfolding_all decide)
    (by with_unfolding_all decide) (by with_unfolding_all decide)

/-! Scores vanish on token-free headings and token-disjoint bodies. -/

theorem headingScore_eq_zero_right {query heading : String}
    (hh : tokeniseClean heading = []) : headingScore query heading = 0 := by
  rw [headingScore_def, if_pos]
  simp [hh]

theorem bestSentenceScore_def (query body : String) :
    bestSentenceScore query body =
      ((splitSentences body).take 12).foldl
        (fun best s =>
          if best.1 < dice (tokeniseClean query) (tokeniseClean s) then
            (dice (tokeniseClean query) (tokeniseClean s), s)
          else best) ((0 : ℚ), "") := rfl

theorem foldl_best_zero (q : List String) :
    ∀ ss : List String, (∀ sent ∈ ss, dice q (tokeniseClean sent) = 0) →
      ss.foldl (fun best s => if best.1 < dice q (tokeniseClean s)
        then (dice q (tokeniseClean s), s) else best) ((0 : ℚ), "") = (0, "")
  | [], _ => rfl
  | s :: ss, h => by
    rw [List.foldl_cons, h s (List.mem_cons_self _ _), if_neg (lt_irrefl 0)]
    exact foldl_best_zero q ss (fun t ht => h t (List.mem_cons_of_mem _ ht))

theorem bestSentenceScore_eq_zero {query body : String}
    (h : ∀ sent ∈ (splitSentences body).take 12,
      dice (tokeniseClean query) (tokeniseClean sent) = 0) :
    bestSentenceScore query body = (0, "") := by
  rw [bestSentenceScore_def]
  exact foldl_best_zero _ _ h

/-- C1 (amended): the no-match branch is taken for a token-disjoint query
only when, in addition, every section heading yields no tokens and the
corpus holds no FAQ: the 0.15 heading bias otherwise promotes any section
with a token-bearing heading past the floor (see the counterexample),
and the 0.06 FAQ boost keeps every FAQ above the floor. Under those
conditions the engine returns the designated no-match answer with an
empty source list. -/
theorem C1_noMatch_amended (corpus : Corpus) (query : String)
    (h : ∀ d ∈ corpus.docs,
      d.faqs = [] ∧
      (∀ t ∈ tokeniseClean query, t ∉ tokeniseClean d.title) ∧
      ∀ s ∈ d.sections,
        tokeniseClean s.heading = [] ∧
        ∀ sent ∈ splitSentences s.body, ∀ t ∈ tokeniseClean query,
          t ∉ tokeniseClean sent) :
    askAnswer corpus query = Answer.noMatch ∧
    answerSources (askAnswer corpus query) = [] := by
  have hq' : tokeniseClean (jsTrim query) = tokeniseClean query := tokeniseClean_jsTrim query
  have hsearch : searchCorpus corpus query = [] := by
    rw [searchCorpus, searchCorpusF_def]
    split
    · rfl
    · have hraw : searchRaw CANDIDATE_FLOOR corpus (jsTrim query) = [] := by
        unfold searchRaw
        rw [List.flatten_eq_nil_iff]
        intro l hl
        rw [List.mem_map] at hl
        obtain ⟨d, hd, rfl⟩ := hl
        obtain ⟨hfaqs, htitle, hsects⟩ := h d hd
        unfold docCands
        rw [hfaqs]
        have h1 : docTitleCand (jsTrim query) d = [] := by
          rw [docTitleCand_def, if_neg]
          intro hge
          have hle : headingScore (jsTrim query) d.title ≤ 15 / 100 := by
            apply headingScore_le_bias_of_disjoint
            rw [hq']
            exact htitle
          linarith
        have h2 : d.sections.filterMap (sectionCand CANDIDATE_FLOOR (jsTrim query) d)
            = [] := by
          rw [List.filterMap_eq_nil_iff]
          intro s hs
          obtain ⟨hhead, hbody⟩ := hsects s hs
          have hb : bestSentenceScore (jsTrim query) s.body = (0, "") := by
            apply bestSentenceScore_eq_zero
            intro sent hsent
            apply dice_eq_zero_of_disjoint
            rw [hq']
            exact fun t ht => hbody sent (List.take_subset _ _ hsent) t ht
          rw [sectionCand_def, headingScore_eq_zero_right hhead, hb]
          norm_num [CANDIDATE_FLOOR]
        rw [h1, h2]
        rfl
      rw [hraw]
      rfl
  unfold askAnswer
  rw [hsearch]
  exact ⟨rfl, rfl⟩

/-- C1 witness: a corpus whose single section has a token-free heading
and a token-disjoint body, no FAQs, at the alien query. -/
theorem C1_witness :
    askAnswer blankCorpus "12345" = Answer.noMatch ∧
    answerSources (askAnswer blankCorpus "12345") = [] :=
  C1_noMatch_amended blankCorpus "12345" (by with_unfolding_all decide)

/-! Invariants of the source-selection loop. -/

theorem secSeen_false {o : Option String} {seenS : List String}
    (h : secSeen o seenS = false) : ∀ s, truthy o = some s → s ∉ seenS := by
  intro s hs
  unfold secSeen at h
  rw [hs] at h
  simpa using h

theorem contains_eq_mem (l : List String) (a : String) :
    l.contains a = true ↔ a ∈ l := by
  simp [List.contains, List.elem_iff]

theorem mem_selGo (x : Cand) :
    ∀ (cands picked : List Cand) (seenS seenD : List String),
      x ∈ picked → x ∈ selGo cands picked seenS seenD
  | [], _, _, _, hx => hx
  | c :: rest, picked, seenS, seenD, hx => by
    simp only [selGo]
    split
    · exact mem_selGo x rest picked _ _ hx
    · split
      · exact mem_selGo x rest picked _ _ hx
      · split
        · exact List.mem_append.mpr (Or.inl hx)
        · exact mem_selGo x rest (picked ++ [c]) _ _ (List.mem_append.mpr (Or.inl hx))

theorem selGo_bounds :
    ∀ (cands picked : List Cand) (seenS seenD : List String),
      picked.length ≤ 2 →
      (picked.filterMap (fun c => truthy c.secIdJS)).Nodup →
      (∀ i ∈ picked.filterMap (fun c => truthy c.secIdJS), i ∈ seenS) →
      seenD.Nodup → seenD.length ≤ 2 →
      (∀ x ∈ picked, x.docRef.id ∈ seenD) →
      (selGo cands picked seenS seenD).length ≤ 3 ∧
      ((selGo cands picked seenS seenD).filterMap (fun c => truthy c.secIdJS)).Nodup ∧
      ∃ S : List String, S.Nodup ∧ S.length ≤ 2 ∧
        ∀ x ∈ selGo cands picked seenS seenD, x.docRef.id ∈ S
  | [], picked, seenS, seenD, hlen, hnd, hsub, hDnd, hDlen, hDmem =>
    ⟨Nat.le_trans hlen (by norm_num), hnd, seenD, hDnd, hDlen, hDmem⟩
  | c :: rest, picked, seenS, seenD, hlen, hnd, hsub, hDnd, hDlen, hDmem => by
    simp only [selGo]
    split
    · exact selGo_bounds rest picked seenS seenD hlen hnd hsub hDnd hDlen hDmem
    · next hsec =>
      split
      · exact selGo_bounds rest picked seenS seenD hlen hnd hsub hDnd hDlen hDmem
      · next hcap =>
        have hsec' : ∀ s, truthy c.secIdJS = some s → s ∉ seenS :=
          secSeen_false (Bool.of_not_eq_true hsec)
        -- the push branch re-establishes every invariant
        have hnd' : ((picked ++ [c]).filterMap (fun c => truthy c.secIdJS)).Nodup := by
          rw [List.filterMap_append]
          cases ho : truthy c.secIdJS with
          | none => simpa [List.filterMap, ho] using hnd
          | some s =>
            have hs : s ∉ seenS := hsec' s ho
            simp only [List.filterMap, ho]
            rw [List.nodup_append]
            refine ⟨hnd, List.nodup_singleton s, ?_⟩
            intro i hi
            simp only [List.mem_singleton]
            intro his
            exact hs (his ▸ hsub i hi)
        have hsub' : ∀ i ∈ (picked ++ [c]).filterMap (fun c => truthy c.secIdJS),
            i ∈ (match truthy c.secIdJS with
              | some s => s :: seenS
              | none => seenS) := by
          intro i hi
          rw [List.filterMap_append] at hi
          rcases List.mem_append.mp hi with hi | hi
          · cases ho : truthy c.secIdJS with
            | none => exact hsub i hi
            | some s => exact List.mem_cons_of_mem _ (hsub i hi)
          · cases ho : truthy c.secIdJS with
            | none => simp [List.filterMap, ho] at hi
            | some s =>
              simp only [List.filterMap, ho, List.mem_singleton] at hi
              simp [ho, hi]
        have hDcases : (if seenD.contains c.docRef.id then seenD
            else c.docRef.id :: seenD).Nodup ∧
            (if seenD.contains c.docRef.id then seenD
              else c.docRef.id :: seenD).length ≤ 2 ∧
            (∀ x ∈ picked ++ [c], x.docRef.id ∈
              (if seenD.contains c.docRef.id then seenD
                else c.docRef.id :: seenD)) := by
          by_cases hin : seenD.contains c.docRef.id
          · rw [if_pos hin]
            refine ⟨hDnd, hDlen, ?_⟩
            intro x hx
            rcases List.mem_append.mp hx with hx | hx
            · exact hDmem x hx
            · rw [List.mem_singleton.mp hx]
              exact (contains_eq_mem _ _).mp hin
          · rw [if_neg hin]
            have hnotin : c.docRef.id ∉ seenD := fun hmem =>
              hin ((contains_eq_mem _ _).mpr hmem)
            have hlen2 : seenD.length ≠ 2 := by
              intro h2
              exact hcap (by simp [h2, contains_eq_mem, hnotin])
            refine ⟨List.nodup_cons.mpr ⟨hnotin, hDnd⟩, ?_, ?_⟩
            · have : seenD.length ≤ 1 := by omega
              simpa using Nat.succ_le_succ this
            · intro x hx
              rcases List.mem_append.mp hx with hx | hx
              · exact List.mem_cons_of_mem _ (hDmem x hx)
              · rw [List.mem_singleton.mp hx]
                exact List.mem_cons_self _ _
        split
        · next hstop =>
          refine ⟨?_, hnd', ?_⟩
          · rw [List.length_append]
            simpa using Nat.add_le_add_right hlen 1
          · exact ⟨_, hDcases.1, hDcases.2.1, hDcases.2.2⟩
        · next hgo =>
          have hlen' : (picked ++ [c]).length ≤ 2 := by
            rw [List.length_append] at hgo ⊢
            omega
          exact selGo_bounds rest (picked ++ [c]) _ _ hlen' hnd' hsub'
            hDcases.1 hDcases.2.1 hDcases.2.2

/-- C3: the selected source list never exceeds 3 entries (hence 3
distinct sections — duplicate non-null section ids are skipped, so the
kept ones are pairwise distinct) and never draws on more than 2 distinct
documents; a candidate from a fresh document is skipped once two
documents are represented, a candidate whose (non-null) section id was
already included is skipped, and a candidate of an already-included
document still passes the document cap. -/
theorem C3_source_caps (cands : List Cand) :
    (selectSources cands).length ≤ 3 ∧
    ((selectSources cands).map (fun c => c.docRef.id)).dedup.length ≤ 2 ∧
    ((selectSources cands).filterMap (fun c => truthy c.secIdJS)).Nodup ∧
    (∀ (c : Cand) (rest picked : List Cand) (seenS seenD : List String),
      seenD.length = 2 → c.docRef.id ∉ seenD →
      selGo (c :: rest) picked seenS seenD = selGo rest picked seenS seenD) ∧
    (∀ (c : Cand) (rest picked : List Cand) (seenS seenD : List String) (s : String),
      truthy c.secIdJS = some s → s ∈ seenS →
      selGo (c :: rest) picked seenS seenD = selGo rest picked seenS seenD) ∧
    (∀ (c : Cand) (rest picked : List Cand) (seenS seenD : List String),
      secSeen c.secIdJS seenS = false → c.docRef.id ∈ seenD →
      c ∈ selGo (c :: rest) picked seenS seenD) := by
  obtain ⟨h1, h2, S, hSnd, hSlen, hScov⟩ :=
    selGo_bounds cands [] [] [] (by simp) (by simp) (by simp) (by simp)
      (by simp) (by simp)
  refine ⟨h1, ?_, h2, ?_, ?_, ?_⟩
  · have hnd := List.nodup_dedup ((selectSources cands).map (fun c => c.docRef.id))
    have hsubS : ((selectSources cands).map (fun c => c.docRef.id)).dedup ⊆ S := by
      intro i hi
      have hi' := List.dedup_subset _ hi
      rw [List.mem_map] at hi'
      obtain ⟨x, hx, rfl⟩ := hi'
      exact hScov x hx
    exact Nat.le_trans (List.subperm_of_subset hnd hsubS).length_le hSlen
  · intro c rest picked seenS seenD hlen hmem
    by_cases hsec : secSeen c.secIdJS seenS
    · simp [selGo, hsec]
    · have hcf : seenD.contains c.docRef.id = false := by
        rw [← Bool.not_eq_true]
        exact fun hc => hmem ((contains_eq_mem _ _).mp hc)
      have hcond : (seenD.length = 2 && !seenD.contains c.docRef.id) = true := by
        simp [hlen, hcf, hmem]
      simp only [selGo]
      rw [if_neg hsec, if_pos hcond]
  · intro c rest picked seenS seenD s hts hsS
    have hsec : secSeen c.secIdJS seenS = true := by
      unfold secSeen
      rw [hts]
      simpa using hsS
    simp [selGo, hsec]
  · intro c rest picked seenS seenD hsec hmem
    have hcontains : seenD.contains c.docRef.id = true := (contains_eq_mem _ _).mpr hmem
    simp only [selGo, hsec, Bool.false_eq_true, if_false, hcontains, Bool.not_true,
      Bool.and_false]
    split
    · exact List.mem_append.mpr (Or.inr (List.mem_singleton.mpr rfl))
    · exact mem_selGo c rest (picked ++ [c]) _ _
        (List.mem_append.mpr (Or.inr (List.mem_singleton.mpr rfl)))

/-! The working pool: tiering, descending order, stable ties. -/

theorem sorted_searchCorpus (corpus : Corpus) (query : String) :
    (searchCorpus corpus query).Pairwise candLE := by
  rw [searchCorpus, searchCorpusF_def]
  split
  · exact List.Pairwise.nil
  · exact List.sorted_insertionSort candLE _

/-- C5: if any candidate reaches the strong threshold the pool is the
strong tier, else the whole candidate list; the pool is ordered
descending by score (`candLE`); equal-score candidates stay in the push
order (document, then title/section/FAQ order) after the sort; and the
pool preserves that relative order, being a sublist of the sorted
candidate list. -/
theorem C5_pool_sorted_stable (corpus : Corpus) (query : String) :
    (∀ cands : List Cand, (∃ c ∈ cands, STRONG_MATCH ≤ c.score) →
      poolOf cands = strongPool cands) ∧
    (∀ cands : List Cand, (∀ c ∈ cands, ¬STRONG_MATCH ≤ c.score) →
      poolOf cands = cands) ∧
    (poolOf (searchCorpus corpus query)).Pairwise candLE ∧
    (jsTrim query ≠ "" → ∀ s : ℚ,
      (searchCorpus corpus query).filter (fun c => decide (c.score = s)) =
        (searchRaw CANDIDATE_FLOOR corpus (jsTrim query)).filter
          (fun c => decide (c.score = s))) ∧
    (poolOf (searchCorpus corpus query)).Sublist (searchCorpus corpus query) := by
  refine ⟨?_, ?_, ?_, ?_, ?_⟩
  · intro cands ⟨c, hc, hstrong⟩
    unfold poolOf
    rw [if_neg]
    rw [Bool.not_eq_true, List.isEmpty_eq_false]
    exact List.ne_nil_of_mem (List.mem_filter.mpr ⟨hc, decide_eq_true hstrong⟩)
  · intro cands hall
    unfold poolOf
    rw [if_pos]
    rw [List.isEmpty_eq_true]
    unfold strongPool
    rw [List.filter_eq_nil_iff]
    intro c hc
    simpa using hall c hc
  · have hs := sorted_searchCorpus corpus query
    unfold poolOf
    split
    · exact hs
    · exact hs.filter _
  · intro hne s
    rw [searchCorpus, searchCorpusF_def, if_neg hne]
    have hall : ∀ a ∈ (searchRaw CANDIDATE_FLOOR corpus (jsTrim query)).filter
        (fun c => decide (c.score = s)), a.score = s := by
      intro a ha
      simpa using (List.mem_filter.mp ha).2
    have hpw : ((searchRaw CANDIDATE_FLOOR corpus (jsTrim query)).filter
        (fun c => decide (c.score = s))).Pairwise candLE := by
      apply List.pairwise_of_forall_mem_list
      intro a ha b hb
      unfold candLE
      rw [hall a ha, hall b hb]
    have hsub : ((searchRaw CANDIDATE_FLOOR corpus (jsTrim query)).filter
          (fun c => decide (c.score = s))).Sublist
        (sortCands (searchRaw CANDIDATE_FLOOR corpus (jsTrim query))) :=
      List.sublist_insertionSort hpw (List.filter_sublist _)
    have hsub2 : ((searchRaw CANDIDATE_FLOOR corpus (jsTrim query)).filter
          (fun c => decide (c.score = s))).Sublist
        ((sortCands (searchRaw CANDIDATE_FLOOR corpus (jsTrim query))).filter
          (fun c => decide (c.score = s))) := by
      have h := hsub.filter (fun c => decide (c.score = s))
      rw [List.filter_filter] at h
      simpa only [Bool.and_self] using h
    have hperm : List.Perm
        ((sortCands (searchRaw CANDIDATE_FLOOR corpus (jsTrim query))).filter
          (fun c => decide (c.score = s)))
        ((searchRaw CANDIDATE_FLOOR corpus (jsTrim query)).filter
          (fun c => decide (c.score = s))) :=
      (List.perm_insertionSort candLE _).filter _
    exact (hsub2.eq_of_length hperm.length_eq.symm).symm
  · unfold poolOf
    split
    · exact List.Sublist.refl _
    · exact List.filter_sublist _

/-- C5 witness: the scenario run has a strong candidate, so the pool is
the strong tier, and it is sorted. -/
theorem C5_witness :
    poolOf (searchCorpus payCorpus scenarioQuery)
      = strongPool (searchCorpus payCorpus scenarioQuery) ∧
    (poolOf (searchCorpus payCorpus scenarioQuery)).Pairwise candLE ∧
    (searchCorpus payCorpus scenarioQuery).filter (fun c => decide (c.score = 17 / 35)) =
      (searchRaw CANDIDATE_FLOOR payCorpus (jsTrim scenarioQuery)).filter
        (fun c => decide (c.score = 17 / 35)) :=
  ⟨(C5_pool_sorted_stable payCorpus scenarioQuery).1
     (searchCorpus payCorpus scenarioQuery) (by with_unfolding_all decide),
   (C5_pool_sorted_stable payCorpus scenarioQuery).2.2.1,
   (C5_pool_sorted_stable payCorpus scenarioQuery).2.2.2.1
     (by with_unfolding_all decide) (17 / 35)⟩

/-! Monotonicity of the relevance floor. -/

theorem length_filterMap_le {α β : Type} (f g : α → Option β) :
    ∀ l : List α, (∀ a ∈ l, (g a).isSome = true → (f a).isSome = true) →
      (l.filterMap g).length ≤ (l.filterMap f).length
  | [], _ => Nat.le_refl 0
  | a :: l, h => by
    rw [List.filterMap_cons, List.filterMap_cons]
    have ih := length_filterMap_le f g l (fun b hb => h b (List.mem_cons_of_mem _ hb))
    cases hg : g a with
    | none =>
      cases hf : f a with
      | none => exact ih
      | some v => simpa using Nat.le_succ_of_le ih
    | some w =>
      cases hf : f a with
      | none =>
        exfalso
        have h2 := h a (List.mem_cons_self _ _) (by simp [hg])
        simp [hf] at h2
      | some v => simpa using Nat.succ_le_succ ih

theorem sectionCand_isSome_anti {f1 f2 : ℚ} (hf : f1 ≤ f2) (q : String) (d : Doc) (s : Sect)
    (h : (sectionCand f2 q d s).isSome = true) : (sectionCand f1 q d s).isSome = true := by
  rw [sectionCand_def] at h ⊢
  by_cases hcond : f2 ≤ max (headingScore q s.heading) (bestSentenceScore q s.body).1
      + (if 0 < headingScore q s.heading then BOOST_H2 else 0)
  · rw [if_pos (le_trans hf hcond)]
    rfl
  · rw [if_neg hcond] at h
    simp at h

theorem faqCand_isSome_anti {f1 f2 : ℚ} (hf : f1 ≤ f2) (q : String) (d : Doc) (f : Faq)
    (h : (faqCand f2 q d f).isSome = true) : (faqCand f1 q d f).isSome = true := by
  rw [faqCand_def] at h ⊢
  by_cases hcond : f2 ≤ max (headingScore q f.q) (bestSentenceScore q f.a).1 + BOOST_FAQ
  · rw [if_pos (le_trans hf hcond)]
    rfl
  · rw [if_neg hcond] at h
    simp at h

theorem docCands_length_anti {f1 f2 : ℚ} (hf : f1 ≤ f2) (q : String) (d : Doc) :
    (docCands f2 q d).length ≤ (docCands f1 q d).length := by
  unfold docCands
  simp only [List.length_append]
  have h1 := length_filterMap_le (sectionCand f1 q d) (sectionCand f2 q d) d.sections
    (fun s _ => sectionCand_isSome_anti hf q d s)
  have h2 := length_filterMap_le (faqCand f1 q d) (faqCand f2 q d) d.faqs
    (fun f _ => faqCand_isSome_anti hf q d f)
  omega

/-- C6: raising the relevance floor never increases the number of
surviving candidates: for floors `f1 ≤ f2`, the candidate list at `f2`
is at most as long as at `f1`, on every corpus and query. -/
theorem C6_floor_monotone (f1 f2 : ℚ) (corpus : Corpus) (query : String)
    (hf : f1 ≤ f2) :
    (searchCorpusF f2 corpus query).length ≤ (searchCorpusF f1 corpus query).length := by
  rw [searchCorpusF_def, searchCorpusF_def]
  split
  · exact Nat.le_refl 0
  · unfold sortCands
    rw [List.length_insertionSort, List.length_insertionSort]
    unfold searchRaw
    have hds : ∀ ds : List Doc,
        ((ds.map (docCands f2 (jsTrim query))).flatten).length ≤
          ((ds.map (docCands f1 (jsTrim query))).flatten).length := by
      intro ds
      induction ds with
      | nil => exact Nat.le_refl 0
      | cons d ds ih =>
        simp only [List.map_cons, List.flatten_cons, List.length_append]
        exact Nat.add_le_add (docCands_length_anti hf _ d) ih
    exact hds corpus.docs

/-- C6 witness: doubling the floor on the scenario corpus and query. -/
theorem C6_witness :
    (searchCorpusF (1 / 10) payCorpus scenarioQuery).length ≤
      (searchCorpusF (1 / 20) payCorpus scenarioQuery).length :=
  C6_floor_monotone (1 / 20) (1 / 10) payCorpus scenarioQuery (by norm_num)

/-! The sentence splitter: boundaries and the 12-sentence cap. -/

theorem splitGo_ne_nil :
    ∀ (l : List Char) (skip : Bool) (acc : List Char), splitGo skip acc l ≠ []
  | [], _, _ => by simp [splitGo]
  | c :: rest, skip, acc => by
    simp only [splitGo]
    split
    · exact splitGo_ne_nil rest true acc
    · split
      · exact List.cons_ne_nil _ _
      · exact splitGo_ne_nil rest false (c :: acc)

theorem splitGo_dropLast_punct :
    ∀ (l : List Char) (skip : Bool) (acc : List Char),
      ∀ x ∈ (splitGo skip acc l).dropLast,
        ∃ c, x.getLast? = some c ∧ isBoundaryPunct c = true
  | [], skip, acc => by simp [splitGo]
  | c :: rest, skip, acc => by
    simp only [splitGo]
    split
    · exact splitGo_dropLast_punct rest true acc
    · split
      · next hb =>
        intro x hx
        rw [List.dropLast_cons_of_ne_nil (splitGo_ne_nil rest true [])] at hx
        rcases List.mem_cons.mp hx with hx | hx
        · refine ⟨c, ?_, ?_⟩
          · rw [hx, List.reverse_cons, List.getLast?_concat]
          · exact (Bool.and_eq_true _ _).mp hb |>.1
        · exact splitGo_dropLast_punct rest true [] x hx
      · exact splitGo_dropLast_punct rest false (c :: acc)

/-- C8: the splitter cuts the body exactly at trailing `.`/`!`/`?`
boundaries — every sentence but the last ends in one of them — and the
best-sentence extraction reads only the first 12 sentences: two bodies
agreeing on those 12 give the identical score and sentence. -/
theorem C8_sentence_split :
    (∀ body : String, ∀ s ∈ (splitSentences body).dropLast,
      ∃ c, s.data.getLast? = some c ∧ isBoundaryPunct c = true) ∧
    (∀ query b1 b2 : String,
      (splitSentences b1).take 12 = (splitSentences b2).take 12 →
      bestSentenceScore query b1 = bestSentenceScore query b2) := by
  constructor
  · intro body s hs
    unfold splitSentences at hs
    rw [← List.map_dropLast] at hs
    obtain ⟨p, hp, rfl⟩ := List.mem_map.mp hs
    obtain ⟨c, hc, hpunct⟩ := splitGo_dropLast_punct body.data false [] p hp
    exact ⟨c, hc, hpunct⟩
  · intro query b1 b2 h
    rw [bestSentenceScore_def, bestSentenceScore_def, h]

/-- C2: the claim fails on the code at the scenario input itself.  For
the corpus of the scenario and the query
`"make a payment link single use"`, the composed answer carries two
sources, not exactly one, and its lead text is not the first sentence of
the body (the best-overlapping sentence is the second one). -/
theorem C2_counterexample :
    (answerSources (askAnswer payCorpus scenarioQuery)).length = 2 ∧
    answerLead (askAnswer payCorpus scenarioQuery) ≠
      "Enable Limit the number of payments in the dashboard and set it to 1." := by
  with_unfolding_all decide

/-- C2 (amended): the query does select `limit-payments` into the strong
tier, but the document title also passes the doc-candidate threshold, so
the answer has two sources — the section first — and its lead text is the
best-overlapping sentence of the body (the second one) followed by the
document-title snippet. -/
theorem C2_scenario_amended :
    (∃ c ∈ strongPool (searchCorpus payCorpus scenarioQuery),
        c.sectionRef = some limitSect ∧ STRONG_MATCH ≤ c.score) ∧
    askAnswer payCorpus scenarioQuery =
      Answer.answered "This restricts the link to one completed session. Payment Links"
        [{ documentId := "payment-links", secId := "limit-payments",
           docTitle := "Payment Links",
           secTitle := "Limit the number of times a payment link can be paid" },
         { documentId := "payment-links", secId := "", docTitle := "Payment Links",
           secTitle := "Document" }] := by
  with_unfolding_all decide

/-- C1: the claim fails on the code.  The tokens of the query `"12345"`
appear in no title, no section heading, no body sentence and no FAQ of
the scenario corpus, yet the engine does not take the no-match branch:
the heading bias (0.15) plus the heading boost (0.08) lift the section
to 0.23, above both the floor and the strong threshold. -/
theorem C1_counterexample :
    (∀ t ∈ tokeniseClean "12345",
        t ∉ tokeniseClean payDoc.title ∧
        (∀ s ∈ payDoc.sections, t ∉ tokeniseClean s.heading ∧
          ∀ sent ∈ splitSentences s.body, t ∉ tokeniseClean sent) ∧
        payDoc.faqs = []) ∧
    askAnswer payCorpus "12345" ≠ Answer.noMatch ∧
    answerSources (askAnswer payCorpus "12345") ≠ [] := by
  with_unfolding_all decide

/-- C4: on a fetched payload that parses but has no `docs` array, the
engine does reject it and reports not ready, but the stored corpus is
not kept: the assignment `corpus = await r.json()` has already
overwritten it with the malformed value. -/
theorem C4_counterexample :
    loadCorpus { corpus := some (JsValue.withDocs [payDoc]), corpusReady := true }
        (FetchResult.jsonValue JsValue.noDocsArray) ≠
      { corpus := some (JsValue.withDocs [payDoc]), corpusReady := false } ∧
    (loadCorpus { corpus := some (JsValue.withDocs [payDoc]), corpusReady := true }
        (FetchResult.jsonValue JsValue.noDocsArray)).corpus ≠
      some (JsValue.withDocs [payDoc]) := by
  decide

/-- C4 (amended): a malformed parsed payload (falsy value or a value
without a `docs` array) is rejected — the engine reports not ready — but
the stored corpus is overwritten with that payload; only failures that
precede the `r.json()` assignment (HTTP error, JSON parse error) leave
the stored corpus unchanged. -/
theorem C4_load_amended (st : LoadState) :
    (loadCorpus st (FetchResult.jsonValue JsValue.noDocsArray)).corpusReady = false ∧
    (loadCorpus st (FetchResult.jsonValue JsValue.noDocsArray)).corpus
      = some JsValue.noDocsArray ∧
    (loadCorpus st (FetchResult.jsonValue JsValue.nullish)).corpusReady = false ∧
    (loadCorpus st (FetchResult.jsonValue JsValue.nullish)).corpus
      = some JsValue.nullish ∧
    (loadCorpus st FetchResult.notOk).corpus = st.corpus ∧
    (loadCorpus st FetchResult.notOk).corpusReady = false ∧
    (loadCorpus st FetchResult.jsonError).corpus = st.corpus ∧
    (loadCorpus st FetchResult.jsonError).corpusReady = false :=
  ⟨rfl, rfl, rfl, rfl, rfl, rfl, rfl, rfl⟩

/-- C9: the query pipeline is a deterministic function of the engine
state (corpus) and the query: a submission leaves the state untouched,
and submitting the same input again produces the identical answer. -/
theorem C9_deterministic (st : EngineState) (input : String) :
    (submit st input).1 = st ∧
    (submit ((submit st input).1) input).2 = (submit st input).2 := by
  have h1 : (submit st input).1 = st := by
    unfold submit
    split
    · rfl
    · cases hc : st.corpus with
      | none => rfl
      | some c => simp only []; split <;> rfl
  exact ⟨h1, by rw [h1]⟩

end GlobalAsk
